import Mathlib

/-!
Shallow embedding of the "Zulim sabe-tudo" voice-chat client core
(`src/unnamed/part_000` and `src/types.ts`): the connection lifecycle
(`connectToZulim`, the transport callbacks), the gapless playback scheduler
driven by `nextStartTimeRef`, the transcript aggregator
(`currentOutputTranscriptionRef`), the interruption handler, the lip-sync
amplitude analyzer (`updateLipSync`) and text sending (`handleSendText`).
Clock times and durations are rationals; the set of live
`AudioBufferSourceNode`s is a finite set of source identifiers.
-/

namespace Zulim

/-- `Message.role` in `types.ts` is `'user' | 'zulim'` (the spec calls the
`zulim` role "agent"). -/
inductive Role
  | user
  | zulim
deriving DecidableEq

/-- Chat log entry, from `types.ts`. -/
structure Message where
  role : Role
  text : String
deriving DecidableEq

/-- `ConnectionStatus` enum from `types.ts`. -/
inductive ConnectionStatus
  | DISCONNECTED
  | CONNECTING
  | CONNECTED
  | ERROR
deriving DecidableEq

/-- One scheduled playback interval: the pair of times passed to
`source.start(nextStartTimeRef.current)` and implied by the buffer duration. -/
structure PlaybackSlot where
  scheduledStart : ℚ
  scheduledEnd : ℚ
deriving DecidableEq

/-- The scheduling arithmetic of the audio branch of `onmessage`
(lines 146-161): `nextStartTimeRef.current = Math.max(nextStartTimeRef.current,
ctx.currentTime)`, the source is started at that time, and the slot ends
`audioBuffer.duration` later. -/
def scheduleChunk (nextStartTime now duration : ℚ) : PlaybackSlot :=
  let start := max nextStartTime now
  { scheduledStart := start, scheduledEnd := start + duration }

/-- Running the scheduler over a list of arriving chunks, each given as
(arrival output-clock time, decoded duration); after each chunk
`nextStartTimeRef.current += audioBuffer.duration`, i.e. the clock becomes the
slot's scheduled end. Returns the slots in arrival order. -/
def scheduleRun (nextStartTime : ℚ) : List (ℚ × ℚ) → List PlaybackSlot
  | [] => []
  | (now, d) :: rest =>
      let slot := scheduleChunk nextStartTime now d
      slot :: scheduleRun slot.scheduledEnd rest

/-- The value of `nextStartTimeRef.current` after running the scheduler over a
list of arriving chunks. -/
def scheduleRunNst (nextStartTime : ℚ) : List (ℚ × ℚ) → ℚ
  | [] => nextStartTime
  | (now, d) :: rest => scheduleRunNst (scheduleChunk nextStartTime now d).scheduledEnd rest

/-- An inbound audio chunk as handled by `onmessage`: the output-clock time
`ctx.currentTime` observed when it is processed, the decoded buffer duration,
and an identifier for the fresh `AudioBufferSourceNode` created for it. -/
structure AudioChunk where
  arrivalTime : ℚ
  duration : ℚ
  sourceId : ℕ
deriving DecidableEq

/-- One `LiveServerMessage` as inspected by `onmessage`: optional inline audio
data, optional `outputTranscription` text, and the `turnComplete` and
`interrupted` flags, handled in exactly this order by the source. -/
structure ServerMessage where
  audioData : Option AudioChunk
  outputTranscription : Option String
  turnComplete : Bool
  interrupted : Bool
deriving DecidableEq

/-- Outcome of `navigator.mediaDevices.getUserMedia({audio: true})`.
`denied true` is the permission-denied condition the source tests for
(`micErr.name === 'NotAllowedError' || micErr.name === 'PermissionDeniedError'
|| micErr.message?.includes('denied')`); `denied false` is any other
acquisition failure (e.g. no device). -/
inductive MicResult
  | granted
  | denied (permissionDenied : Bool)
deriving DecidableEq

/-- The React state and refs of the `App` component that the core logic
reads and writes. `sources` models `sourcesRef` (a `Set` of live source
nodes), `sessionSet` models whether `sessionRef.current` is non-null,
`analyserSet` whether `analyserRef.current` is non-null. -/
structure AppState where
  messages : List Message
  inputText : String
  status : ConnectionStatus
  isSpeaking : Bool
  audioVolume : ℚ
  errorMessage : Option String
  isMicEnabled : Bool
  analyserSet : Bool
  sessionSet : Bool
  sources : Finset ℕ
  nextStartTime : ℚ
  currentOutputTranscription : String
deriving DecidableEq

/-- The component's initial state (the `useState` / `useRef` initializers). -/
def initialState : AppState where
  messages := []
  inputText := ""
  status := ConnectionStatus.DISCONNECTED
  isSpeaking := false
  audioVolume := 0
  errorMessage := none
  isMicEnabled := true
  analyserSet := false
  sessionSet := false
  sources := ∅
  nextStartTime := 0
  currentOutputTranscription := ""

/-- The user-facing message set when microphone permission is denied. -/
def micDeniedMessage : String :=
  "Acesso ao microfone negado pelo sistema. Você pode continuar apenas por texto."

/-- The synchronous part of `connectToZulim(forceNoMic)` (lines 73-110):
clears the error message, moves to CONNECTING, initializes the audio contexts
and analyser, then attempts microphone acquisition unless `forceNoMic`.
On a permission-denied acquisition failure it sets status ERROR with
`micDeniedMessage` and returns early; on any other failure it proceeds in
text-only mode. The returned Bool records whether execution reaches
`ai.live.connect` (the transport open). -/
def connectToZulim (st : AppState) (forceNoMic : Bool) (mic : MicResult) :
    AppState × Bool :=
  let st := { st with
    errorMessage := none
    status := ConnectionStatus.CONNECTING
    analyserSet := true }
  if forceNoMic then
    ({ st with isMicEnabled := false }, true)
  else
    match mic with
    | MicResult.granted => ({ st with isMicEnabled := true }, true)
    | MicResult.denied permissionDenied =>
        let st := { st with isMicEnabled := false }
        if permissionDenied then
          ({ st with
              status := ConnectionStatus.ERROR
              errorMessage := some micDeniedMessage }, false)
        else
          (st, true)

/-- JavaScript's `String.prototype.trim()` (used by `handleSendText` on
`inputText`): removes leading and trailing whitespace. Written by structural
recursion over the character data so that it evaluates on concrete inputs. -/
def jsTrim (s : String) : String :=
  String.mk
    (((s.data.dropWhile Char.isWhitespace).reverse.dropWhile
        Char.isWhitespace).reverse)

/-- `handleSendText` (lines 206-217): returns early when the trimmed input is
empty or `sessionRef.current` is null; otherwise appends the trimmed text as a
user message, clears the input box and forwards the trimmed text to the
session. The second component is the text forwarded to the transport, if any. -/
def handleSendText (st : AppState) : AppState × Option String :=
  if jsTrim st.inputText = "" ∨ st.sessionSet = false then
    (st, none)
  else
    let userMsg := jsTrim st.inputText
    ({ st with
        messages := st.messages ++ [{ role := Role.user, text := userMsg }]
        inputText := "" }, some userMsg)

/-- `updateLipSync` (lines 48-59): with no analyser or while not speaking it
emits volume 0 and does not schedule another animation frame; otherwise it
averages the frequency-data bytes and emits `Math.min(1, average / 100)`,
scheduling the next frame. The Bool records whether sampling continues
(`requestAnimationFrame` reached). -/
def updateLipSync (analyserPresent speaking : Bool) (dataArray : List ℕ) :
    ℚ × Bool :=
  if analyserPresent = false ∨ speaking = false then
    (0, false)
  else
    let average : ℚ := (dataArray.sum : ℚ) / (dataArray.length : ℚ)
    (min 1 (average / 100), true)

/-- The `onmessage` callback (lines 141-183), processing the four parts of a
server message in source order: the audio branch (sets `isSpeaking`,
schedules the chunk via `scheduleChunk`, registers the source node), the
`outputTranscription` branch (appends to the transcript buffer), the
`turnComplete` branch (emits one zulim message when the buffer is non-empty,
then clears it), and the `interrupted` branch (stops and clears all sources,
zeroes `nextStartTime`, clears `isSpeaking`). -/
def onMessage (st : AppState) (m : ServerMessage) : AppState :=
  let st1 :=
    match m.audioData with
    | none => st
    | some c =>
        let slot := scheduleChunk st.nextStartTime c.arrivalTime c.duration
        { st with
            isSpeaking := true
            nextStartTime := slot.scheduledEnd
            sources := insert c.sourceId st.sources }
  let st2 :=
    match m.outputTranscription with
    | none => st1
    | some t =>
        { st1 with
            currentOutputTranscription := st1.currentOutputTranscription ++ t }
  let st3 :=
    if m.turnComplete then
      { st2 with
          messages :=
            if st2.currentOutputTranscription = "" then st2.messages
            else st2.messages ++
              [{ role := Role.zulim, text := st2.currentOutputTranscription }]
          currentOutputTranscription := "" }
    else st2
  if m.interrupted then
    { st3 with
        sources := ∅
        nextStartTime := 0
        isSpeaking := false }
  else st3

/-- The `'ended'` listener installed on each source (lines 153-158): removes
the source from the set and, when the set becomes empty, clears `isSpeaking`. -/
def onSourceEnded (st : AppState) (id : ℕ) : AppState :=
  let sources := st.sources.erase id
  { st with
      sources := sources
      isSpeaking := if sources.card = 0 then false else st.isSpeaking }

/-- The atomic events acting on the component state: a connect attempt with
its microphone-acquisition outcome, the transport callbacks `onopen`,
`onerror`, `onclose`, the resolution of the session promise (which sets
`sessionRef.current`), an inbound server message, a source's `'ended'` event,
typing into the input box, submitting the text form, and one lip-sync
animation frame carrying the sampled frequency data. -/
inductive Event
  | connectAttempt (forceNoMic : Bool) (mic : MicResult)
  | onOpen
  | sessionResolved
  | onClose
  | onError
  | serverMessage (m : ServerMessage)
  | sourceEnded (id : ℕ)
  | setInputText (s : String)
  | send
  | lipSyncTick (dataArray : List ℕ)
deriving DecidableEq

/-- The user-facing message set by the `onerror` callback. -/
def connectionErrorMessage : String :=
  "Erro na conexão com a Zulim. Verifique sua internet."

/-- One step of the component: how each event transforms the state, following
the corresponding handler in the source. -/
def step (st : AppState) : Event → AppState
  | Event.connectAttempt forceNoMic mic => (connectToZulim st forceNoMic mic).1
  | Event.onOpen => { st with status := ConnectionStatus.CONNECTED }
  | Event.sessionResolved => { st with sessionSet := true }
  | Event.onClose => { st with status := ConnectionStatus.DISCONNECTED }
  | Event.onError =>
      { st with
          status := ConnectionStatus.ERROR
          errorMessage := some connectionErrorMessage }
  | Event.serverMessage m => onMessage st m
  | Event.sourceEnded id => onSourceEnded st id
  | Event.setInputText s => { st with inputText := s }
  | Event.send => (handleSendText st).1
  | Event.lipSyncTick dataArray =>
      { st with
          audioVolume := (updateLipSync st.analyserSet st.isSpeaking dataArray).1 }

/-- A server message carrying only a transcript delta. -/
def transcriptDelta (t : String) : ServerMessage where
  audioData := none
  outputTranscription := some t
  turnComplete := false
  interrupted := false

/-- A server message carrying only the turn-complete flag. -/
def turnCompleteMessage : ServerMessage where
  audioData := none
  outputTranscription := none
  turnComplete := true
  interrupted := false

/-- A server message carrying only the interrupted flag. -/
def interruptedMessage : ServerMessage where
  audioData := none
  outputTranscription := none
  turnComplete := false
  interrupted := true

/-- The speaking/active-set invariant of claim C9: `isSpeaking` holds exactly
when the set of live source nodes is non-empty. -/
def speakingInvariant (st : AppState) : Prop :=
  st.isSpeaking = true ↔ st.sources ≠ ∅

/-- Decoded audio buffers have non-negative durations; the corresponding
side condition on an event. -/
def eventDurationsNonneg : Event → Prop
  | Event.serverMessage m =>
      match m.audioData with
      | some c => 0 ≤ c.duration
      | none => True
  | _ => True

/-- The event is an interruption: a server message with the `interrupted`
flag set. -/
def isInterruptionEvent : Event → Prop
  | Event.serverMessage m => m.interrupted = true
  | _ => False

/-! ### Projection lemmas for the embedded handlers -/

theorem onMessage_nextStartTime (st : AppState) (m : ServerMessage) :
    (onMessage st m).nextStartTime =
      if m.interrupted then 0
      else m.audioData.elim st.nextStartTime
        (fun c => max st.nextStartTime c.arrivalTime + c.duration) := by
  rcases m with ⟨a, t, tc, ir⟩
  cases a <;> cases t <;> cases tc <;> cases ir <;>
    simp [onMessage, scheduleChunk]

theorem onMessage_sources (st : AppState) (m : ServerMessage) :
    (onMessage st m).sources =
      if m.interrupted then ∅
      else m.audioData.elim st.sources (fun c => insert c.sourceId st.sources) := by
  rcases m with ⟨a, t, tc, ir⟩
  cases a <;> cases t <;> cases tc <;> cases ir <;>
    simp [onMessage, scheduleChunk]

theorem onMessage_isSpeaking (st : AppState) (m : ServerMessage) :
    (onMessage st m).isSpeaking =
      if m.interrupted then false
      else if m.audioData.isSome then true else st.isSpeaking := by
  rcases m with ⟨a, t, tc, ir⟩
  cases a <;> cases t <;> cases tc <;> cases ir <;>
    simp [onMessage, scheduleChunk]

theorem onMessage_currentOutputTranscription (st : AppState) (m : ServerMessage) :
    (onMessage st m).currentOutputTranscription =
      if m.turnComplete then ""
      else st.currentOutputTranscription ++ m.outputTranscription.getD "" := by
  rcases m with ⟨a, t, tc, ir⟩
  cases a <;> cases t <;> cases tc <;> cases ir <;>
    simp [onMessage, scheduleChunk]

theorem onMessage_messages (st : AppState) (m : ServerMessage) :
    (onMessage st m).messages =
      if m.turnComplete then
        (if st.currentOutputTranscription ++ m.outputTranscription.getD "" = ""
          then st.messages
          else st.messages ++
            [{ role := Role.zulim,
               text := st.currentOutputTranscription ++ m.outputTranscription.getD "" }])
      else st.messages := by
  rcases m with ⟨a, t, tc, ir⟩
  cases a <;> cases t <;> cases tc <;> cases ir <;>
    simp [onMessage, scheduleChunk]

theorem connectToZulim_frame (st : AppState) (f : Bool) (mic : MicResult) :
    (connectToZulim st f mic).1.isSpeaking = st.isSpeaking ∧
    (connectToZulim st f mic).1.sources = st.sources ∧
    (connectToZulim st f mic).1.nextStartTime = st.nextStartTime ∧
    (connectToZulim st f mic).1.messages = st.messages ∧
    (connectToZulim st f mic).1.currentOutputTranscription =
      st.currentOutputTranscription ∧
    (connectToZulim st f mic).1.sessionSet = st.sessionSet ∧
    (connectToZulim st f mic).1.inputText = st.inputText := by
  rcases mic with _ | p
  · cases f <;> simp [connectToZulim]
  · cases f <;> cases p <;> simp [connectToZulim]

/-! ### Scheduler ordering lemmas -/

theorem scheduleRun_head_start (nst : ℚ) (chunks : List (ℚ × ℚ)) :
    ∀ b ∈ (scheduleRun nst chunks).head?, nst ≤ b.scheduledStart := by
  cases chunks with
  | nil => simp [scheduleRun]
  | cons c rest =>
      rcases c with ⟨now, d⟩
      simp only [scheduleRun, List.head?_cons, Option.mem_def, Option.some.injEq]
      rintro b rfl
      exact le_max_left _ _

theorem scheduleRun_chain (chunks : List (ℚ × ℚ)) :
    ∀ nst : ℚ,
      List.Chain' (fun a b => a.scheduledEnd ≤ b.scheduledStart)
        (scheduleRun nst chunks) := by
  induction chunks with
  | nil => intro nst; simp [scheduleRun]
  | cons c rest ih =>
      rcases c with ⟨now, d⟩
      intro nst
      simp only [scheduleRun]
      exact List.chain'_cons'.2
        ⟨fun y hy => scheduleRun_head_start _ rest y hy, ih _⟩

theorem scheduleRun_tight (chunks : List (ℚ × ℚ)) :
    ∀ nst : ℚ, (∀ c ∈ chunks, c.1 ≤ nst) → (∀ c ∈ chunks, 0 ≤ c.2) →
      List.Chain' (fun a b => a.scheduledEnd = b.scheduledStart)
        (scheduleRun nst chunks) ∧
      ∀ b ∈ (scheduleRun nst chunks).head?, b.scheduledStart = nst := by
  induction chunks with
  | nil => intro nst _ _; constructor <;> simp [scheduleRun]
  | cons c rest ih =>
      rcases c with ⟨now, d⟩
      intro nst harr hd
      have hnow : now ≤ nst := harr (now, d) (List.mem_cons_self _ _)
      have hd0 : (0 : ℚ) ≤ d := hd (now, d) (List.mem_cons_self _ _)
      have hend : (scheduleChunk nst now d).scheduledEnd = nst + d := by
        simp [scheduleChunk, max_eq_left hnow]
      have hrest := ih (scheduleChunk nst now d).scheduledEnd
        (fun c hc => by
          rw [hend]
          exact le_trans (harr c (List.mem_cons_of_mem _ hc)) (by linarith))
        (fun c hc => hd c (List.mem_cons_of_mem _ hc))
      constructor
      · simp only [scheduleRun]
        exact List.chain'_cons'.2
          ⟨fun y hy => (hrest.2 y hy).symm, hrest.1⟩
      · simp only [scheduleRun, List.head?_cons, Option.mem_def, Option.some.injEq]
        rintro b rfl
        simp [scheduleChunk, max_eq_left hnow]

/-! ### Claim theorems -/

/-- Claim C2: for every sequence of inbound chunks with non-negative durations
arriving at non-decreasing output-clock times, the playback slots created by
the scheduler satisfy `scheduledEnd[i] <= scheduledStart[i+1]` for every
`i < N`: scheduled intervals are pairwise non-overlapping and in arrival
order. -/
theorem C2_scheduler_ordering (nst : ℚ) (chunks : List (ℚ × ℚ))
    (hdur : ∀ c ∈ chunks, 0 ≤ c.2)
    (harr : List.Chain' (fun a b => a ≤ b) (chunks.map Prod.fst)) :
    ∀ i : ℕ, ∀ h : i + 1 < (scheduleRun nst chunks).length,
      ((scheduleRun nst chunks).get ⟨i, by omega⟩).scheduledEnd ≤
        ((scheduleRun nst chunks).get ⟨i + 1, h⟩).scheduledStart := by
  intro i h
  exact List.chain'_iff_get.1 (scheduleRun_chain chunks nst) i (by omega)

theorem C2_scheduler_ordering_witness :
    ((scheduleRun 0 [(0, 1), (2, 3)]).get ⟨0, by decide⟩).scheduledEnd ≤
      ((scheduleRun 0 [(0, 1), (2, 3)]).get ⟨1, by decide⟩).scheduledStart :=
  C2_scheduler_ordering 0 [(0, 1), (2, 3)]
    (by decide) (by norm_num [List.chain'_cons]) 0 (by decide)

/-- Claim C3: chunks that all arrive no later than the first chunk's scheduled
end are scheduled back-to-back with zero gap
(`scheduledStart[i+1] = scheduledEnd[i]`); and in the concrete scenario of
three chunks of duration 1/2 arriving simultaneously at output-clock time `t0`
with `nextStartTime` initially 0, the scheduled starts are `t0`, `t0 + 1/2`,
`t0 + 1`, and `nextStartTime` ends at `t0 + 3/2`. -/
theorem C3_burst_back_to_back :
    (∀ (nst now1 d1 : ℚ) (rest : List (ℚ × ℚ)),
        (∀ c ∈ rest, 0 ≤ c.2) →
        (∀ c ∈ rest, c.1 ≤ (scheduleChunk nst now1 d1).scheduledEnd) →
        List.Chain' (fun a b => a.scheduledEnd = b.scheduledStart)
          (scheduleRun nst ((now1, d1) :: rest))) ∧
    (∀ t0 : ℚ, 0 ≤ t0 →
        (scheduleRun 0 [(t0, 1/2), (t0, 1/2), (t0, 1/2)]).map
            PlaybackSlot.scheduledStart = [t0, t0 + 1/2, t0 + 1] ∧
        scheduleRunNst 0 [(t0, 1/2), (t0, 1/2), (t0, 1/2)] = t0 + 3/2) := by
  constructor
  · intro nst now1 d1 rest hd harr
    have hrest := scheduleRun_tight rest (scheduleChunk nst now1 d1).scheduledEnd
      harr hd
    simp only [scheduleRun]
    exact List.chain'_cons'.2 ⟨fun y hy => (hrest.2 y hy).symm, hrest.1⟩
  · intro t0 ht0
    have h1 : max (0 : ℚ) t0 = t0 := max_eq_right ht0
    have h2 : max (t0 + 1/2) t0 = t0 + 1/2 := max_eq_left (by linarith)
    have h3 : max (t0 + 1/2 + 1/2) t0 = t0 + 1/2 + 1/2 := max_eq_left (by linarith)
    constructor
    · simp only [scheduleRun, scheduleChunk, h1, h2, h3, List.map_cons, List.map_nil]
      norm_num
      ring
    · simp only [scheduleRunNst, scheduleChunk, h1, h2, h3]
      ring

theorem C3_burst_back_to_back_witness :
    List.Chain' (fun a b => a.scheduledEnd = b.scheduledStart)
      (scheduleRun 0 [((2 : ℚ), (1 : ℚ)), (2, 1)]) ∧
    (scheduleRun 0 [((3 : ℚ), 1/2), (3, 1/2), (3, 1/2)]).map
        PlaybackSlot.scheduledStart = [3, 3 + 1/2, 3 + 1] ∧
    scheduleRunNst 0 [((3 : ℚ), 1/2), (3, 1/2), (3, 1/2)] = 3 + 3/2 :=
  ⟨C3_burst_back_to_back.1 0 2 1 [(2, 1)] (by decide)
      (by norm_num [scheduleChunk, max_eq_right (show (0:ℚ) ≤ 2 by norm_num)]),
   (C3_burst_back_to_back.2 3 (by decide)).1,
   (C3_burst_back_to_back.2 3 (by decide)).2⟩

/-- Claim C4: after every interruption event, regardless of how many playback
slots were active beforehand, the set of active sources is empty,
`nextStartTime` is 0, `isSpeaking` is false, and any subsequent lip-sync tick
emits volume exactly 0 (so the SpeakingSignal is `{false, 0}`). -/
theorem C4_interruption_clears_state (st : AppState) (m : ServerMessage)
    (h : m.interrupted = true) :
    (onMessage st m).sources = ∅ ∧
    (onMessage st m).nextStartTime = 0 ∧
    (onMessage st m).isSpeaking = false ∧
    ∀ dataArray : List ℕ,
      (step (onMessage st m) (Event.lipSyncTick dataArray)).audioVolume = 0 := by
  refine ⟨?_, ?_, ?_, ?_⟩
  · simp [onMessage_sources, h]
  · simp [onMessage_nextStartTime, h]
  · simp [onMessage_isSpeaking, h]
  · intro dataArray
    simp [step, updateLipSync, onMessage_isSpeaking, h]

theorem C4_interruption_clears_state_witness :
    (onMessage { initialState with
        sources := {1, 2, 3}, isSpeaking := true, nextStartTime := 7 }
      interruptedMessage).sources = ∅ ∧
    (onMessage { initialState with
        sources := {1, 2, 3}, isSpeaking := true, nextStartTime := 7 }
      interruptedMessage).nextStartTime = 0 ∧
    (onMessage { initialState with
        sources := {1, 2, 3}, isSpeaking := true, nextStartTime := 7 }
      interruptedMessage).isSpeaking = false ∧
    (step (onMessage { initialState with
        sources := {1, 2, 3}, isSpeaking := true, nextStartTime := 7 }
      interruptedMessage) (Event.lipSyncTick [200, 50])).audioVolume = 0 := by
  have h := C4_interruption_clears_state
    { initialState with sources := {1, 2, 3}, isSpeaking := true, nextStartTime := 7 }
    interruptedMessage rfl
  exact ⟨h.1, h.2.1, h.2.2.1, h.2.2.2 [200, 50]⟩

/-- Claim C5: `nextStartTime` is non-decreasing under every event whose audio
durations are non-negative — an event after which it has strictly decreased
must be an interruption — and an interruption sets it to 0. -/
theorem C5_nextStartTime_monotone :
    (∀ (st : AppState) (e : Event), eventDurationsNonneg e →
        (step st e).nextStartTime < st.nextStartTime → isInterruptionEvent e) ∧
    (∀ (st : AppState) (m : ServerMessage), m.interrupted = true →
        (step st (Event.serverMessage m)).nextStartTime = 0) := by
  constructor
  · intro st e hdur hlt
    cases e with
    | connectAttempt f mic =>
        rw [show (step st (Event.connectAttempt f mic)).nextStartTime
              = st.nextStartTime from (connectToZulim_frame st f mic).2.2.1] at hlt
        exact absurd hlt (lt_irrefl _)
    | serverMessage m =>
        by_cases hint : m.interrupted = true
        · exact hint
        · exfalso
          rw [step, onMessage_nextStartTime, if_neg (by simp [hint])] at hlt
          cases ha : m.audioData with
          | none => rw [ha] at hlt; exact absurd hlt (lt_irrefl _)
          | some c =>
              rw [ha] at hlt
              have h0 : 0 ≤ c.duration := by
                have := hdur
                simp only [eventDurationsNonneg, ha] at this
                exact this
              exact absurd hlt (not_lt.2 (le_trans (le_max_left _ _)
                (le_add_of_nonneg_right h0)))
    | send =>
        exfalso
        simp only [step, handleSendText] at hlt
        split at hlt <;> exact absurd hlt (lt_irrefl _)
    | onOpen => exact absurd hlt (lt_irrefl _)
    | sessionResolved => exact absurd hlt (lt_irrefl _)
    | onClose => exact absurd hlt (lt_irrefl _)
    | onError => exact absurd hlt (lt_irrefl _)
    | sourceEnded id => exact absurd hlt (lt_irrefl _)
    | setInputText s => exact absurd hlt (lt_irrefl _)
    | lipSyncTick dataArray => exact absurd hlt (lt_irrefl _)
  · intro st m hint
    simp [step, onMessage_nextStartTime, hint]

theorem C5_nextStartTime_monotone_witness :
    isInterruptionEvent (Event.serverMessage interruptedMessage) ∧
    (step { initialState with nextStartTime := 5 }
      (Event.serverMessage interruptedMessage)).nextStartTime = 0 :=
  ⟨C5_nextStartTime_monotone.1 { initialState with nextStartTime := 5 }
      (Event.serverMessage interruptedMessage) trivial
      (by norm_num [step, onMessage_nextStartTime, interruptedMessage]),
   C5_nextStartTime_monotone.2 { initialState with nextStartTime := 5 }
      interruptedMessage rfl⟩

/-- Claim C9: the speaking flag tracks the active source set — the invariant
`isSpeaking = true ↔ sources ≠ ∅` holds initially and is preserved by every
event: an audio chunk inserts a source and sets the flag, a source's `ended`
event clears the flag exactly when it removes the last source, and an
interruption clears both. -/
theorem C9_isSpeaking_iff_active :
    speakingInvariant initialState ∧
    ∀ (st : AppState) (e : Event),
      speakingInvariant st → speakingInvariant (step st e) := by
  constructor
  · simp [speakingInvariant, initialState]
  · intro st e hinv
    cases e with
    | connectAttempt f mic =>
        have h := connectToZulim_frame st f mic
        unfold speakingInvariant at hinv ⊢
        rw [show (step st (Event.connectAttempt f mic)).isSpeaking
              = st.isSpeaking from h.1,
            show (step st (Event.connectAttempt f mic)).sources
              = st.sources from h.2.1]
        exact hinv
    | serverMessage m =>
        unfold speakingInvariant at hinv ⊢
        rw [show (step st (Event.serverMessage m)).isSpeaking
              = (onMessage st m).isSpeaking from rfl,
            show (step st (Event.serverMessage m)).sources
              = (onMessage st m).sources from rfl,
            onMessage_isSpeaking, onMessage_sources]
        by_cases hint : m.interrupted <;> simp only [hint, if_true, if_false]
        · simp
        · cases m.audioData with
          | none => simpa using hinv
          | some c => simp [Finset.insert_ne_empty]
    | sourceEnded id =>
        unfold speakingInvariant at hinv ⊢
        show ((onSourceEnded st id).isSpeaking = true ↔ (onSourceEnded st id).sources ≠ ∅)
        simp only [onSourceEnded]
        by_cases h0 : (st.sources.erase id).card = 0
        · simp [h0, Finset.card_eq_zero.1 h0]
        · have hne : st.sources.erase id ≠ ∅ :=
            fun he => h0 (by simp [he])
          have hsne : st.sources ≠ ∅ := by
            intro hs
            exact hne (by simp [hs])
          simp [h0, hne, hinv.2 hsne]
    | onOpen => exact hinv
    | sessionResolved => exact hinv
    | onClose => exact hinv
    | onError => exact hinv
    | setInputText s => exact hinv
    | lipSyncTick dataArray => exact hinv
    | send =>
        unfold speakingInvariant at hinv ⊢
        show ((handleSendText st).1.isSpeaking = true ↔ (handleSendText st).1.sources ≠ ∅)
        unfold handleSendText
        split
        · exact hinv
        · exact hinv

theorem C9_isSpeaking_iff_active_witness :
    speakingInvariant (step initialState
      (Event.serverMessage
        { audioData := some { arrivalTime := 0, duration := 1, sourceId := 5 },
          outputTranscription := none, turnComplete := false,
          interrupted := false })) :=
  C9_isSpeaking_iff_active.2 initialState
    (Event.serverMessage
      { audioData := some { arrivalTime := 0, duration := 1, sourceId := 5 },
        outputTranscription := none, turnComplete := false,
        interrupted := false })
    (by simp [speakingInvariant, initialState])

/-! ### String helper lemmas for the transcript aggregator -/

theorem string_append_assoc (a b c : String) : a ++ b ++ c = a ++ (b ++ c) := by
  apply String.ext
  simp [String.data_append]

theorem string_join_cons (t : String) (rest : List String) :
    String.join (t :: rest) = t ++ String.join rest := by
  apply String.ext
  simp [String.data_join, String.data_append]

theorem onMessage_transcriptDelta (st : AppState) (t : String) :
    onMessage st (transcriptDelta t) =
      { st with
          currentOutputTranscription := st.currentOutputTranscription ++ t } :=
  rfl

theorem foldl_transcriptDelta (ds : List String) :
    ∀ st : AppState,
      ((ds.map transcriptDelta).foldl onMessage st).currentOutputTranscription =
        st.currentOutputTranscription ++ String.join ds ∧
      ((ds.map transcriptDelta).foldl onMessage st).messages = st.messages := by
  induction ds with
  | nil =>
      intro st
      simp [String.join]
  | cons t rest ih =>
      intro st
      simp only [List.map_cons, List.foldl_cons, onMessage_transcriptDelta]
      obtain ⟨h1, h2⟩ := ih
        { st with currentOutputTranscription := st.currentOutputTranscription ++ t }
      refine ⟨?_, h2⟩
      rw [h1, string_join_cons, string_append_assoc]

/-- Claim C6: appending the transcript deltas in arrival order and then
handling turn-complete leaves the transcript buffer holding the concatenation
of the deltas just before turn-complete, empties the buffer afterwards, and
extends the message log by exactly one zulim (agent) message holding that
concatenation when it is non-empty and by nothing when it is empty. -/
theorem C6_transcript_finalization (st : AppState) (ds : List String)
    (h : st.currentOutputTranscription = "") :
    ((ds.map transcriptDelta).foldl onMessage st).currentOutputTranscription =
      String.join ds ∧
    (onMessage ((ds.map transcriptDelta).foldl onMessage st)
        turnCompleteMessage).currentOutputTranscription = "" ∧
    (onMessage ((ds.map transcriptDelta).foldl onMessage st)
        turnCompleteMessage).messages =
      st.messages ++
        (if String.join ds = "" then []
         else [{ role := Role.zulim, text := String.join ds }]) := by
  obtain ⟨h1, h2⟩ := foldl_transcriptDelta ds st
  rw [h] at h1
  rw [String.empty_append] at h1
  refine ⟨h1, ?_, ?_⟩
  · simp [onMessage_currentOutputTranscription, turnCompleteMessage]
  · rw [onMessage_messages, h2, h1]
    simp only [turnCompleteMessage, Option.getD_none, String.append_empty, if_true]
    split
    · simp
    · rfl

theorem C6_transcript_finalization_witness :
    ((["Ol", "á, ", "mundo"].map transcriptDelta).foldl onMessage
        initialState).currentOutputTranscription =
      String.join ["Ol", "á, ", "mundo"] ∧
    (onMessage ((["Ol", "á, ", "mundo"].map transcriptDelta).foldl onMessage
        initialState) turnCompleteMessage).currentOutputTranscription = "" ∧
    (onMessage ((["Ol", "á, ", "mundo"].map transcriptDelta).foldl onMessage
        initialState) turnCompleteMessage).messages =
      initialState.messages ++
        (if String.join ["Ol", "á, ", "mundo"] = "" then []
         else [{ role := Role.zulim, text := String.join ["Ol", "á, ", "mundo"] }]) :=
  C6_transcript_finalization initialState ["Ol", "á, ", "mundo"] rfl

/-- Claim C7: the lip-sync volume always lies in [0,1]; while the analyser is
live and speaking it equals `min 1 (average / 100)` of the sampled magnitudes,
an all-zero signal yields 0, an average at or above the scale ceiling 100
yields exactly 1, and while not speaking the volume is exactly 0 and sampling
stops. -/
theorem C7_volume_bounds (analyserPresent speaking : Bool) (dataArray : List ℕ)
    (hne : dataArray ≠ []) :
    (0 ≤ (updateLipSync analyserPresent speaking dataArray).1 ∧
      (updateLipSync analyserPresent speaking dataArray).1 ≤ 1) ∧
    (analyserPresent = true → speaking = true →
      (updateLipSync analyserPresent speaking dataArray).1 =
        min 1 (((dataArray.sum : ℚ) / (dataArray.length : ℚ)) / 100)) ∧
    ((∀ x ∈ dataArray, x = 0) →
      (updateLipSync analyserPresent speaking dataArray).1 = 0) ∧
    (analyserPresent = true → speaking = true →
      100 ≤ ((dataArray.sum : ℚ) / (dataArray.length : ℚ)) →
      (updateLipSync analyserPresent speaking dataArray).1 = 1) ∧
    (speaking = false →
      (updateLipSync analyserPresent speaking dataArray).1 = 0 ∧
      (updateLipSync analyserPresent speaking dataArray).2 = false) := by
  cases analyserPresent with
  | false => simp [updateLipSync]
  | true =>
      cases speaking with
      | false => simp [updateLipSync]
      | true =>
          have hred : updateLipSync true true dataArray =
              (min 1 (((dataArray.sum : ℚ) / (dataArray.length : ℚ)) / 100),
               true) := rfl
          rw [hred]
          have havg : (0 : ℚ) ≤ (dataArray.sum : ℚ) / (dataArray.length : ℚ) := by
            positivity
          refine ⟨⟨le_min (by norm_num) (by positivity), min_le_left _ _⟩,
            fun _ _ => rfl, ?_, fun _ _ h100 => min_eq_left (by linarith), ?_⟩
          · intro hz
            simp [List.sum_eq_zero hz]
          · intro hfalse
            exact absurd hfalse (by simp)

theorem C7_volume_bounds_witness :
    ((0 ≤ (updateLipSync true true [200, 0]).1 ∧
       (updateLipSync true true [200, 0]).1 ≤ 1)) ∧
    (updateLipSync true true [200, 0]).1 =
      min 1 ((((([200, 0] : List ℕ).sum : ℚ)) / ((([200, 0] : List ℕ).length : ℚ))) / 100) ∧
    (100 ≤ ((([200, 0] : List ℕ).sum : ℚ) / (([200, 0] : List ℕ).length : ℚ)) →
      (updateLipSync true true [200, 0]).1 = 1) := by
  have h := C7_volume_bounds true true [200, 0] (by decide)
  exact ⟨h.1, h.2.1 rfl rfl, h.2.2.2.1 rfl rfl⟩

/-- Claim C10: handling an interruption event leaves the transcript buffer and
the message log unchanged, so a later turn-complete still emits the zulim
(agent) message holding the transcript text accumulated before the
interruption. -/
theorem C10_interruption_preserves_transcript (st : AppState) :
    (onMessage st interruptedMessage).currentOutputTranscription =
      st.currentOutputTranscription ∧
    (onMessage st interruptedMessage).messages = st.messages ∧
    (st.currentOutputTranscription ≠ "" →
      (onMessage (onMessage st interruptedMessage) turnCompleteMessage).messages =
        st.messages ++
          [{ role := Role.zulim, text := st.currentOutputTranscription }]) := by
  refine ⟨rfl, rfl, ?_⟩
  intro h
  rw [onMessage_messages]
  simp only [turnCompleteMessage, Option.getD_none, String.append_empty, if_true]
  rw [show (onMessage st interruptedMessage).currentOutputTranscription =
    st.currentOutputTranscription from rfl]
  rw [show (onMessage st interruptedMessage).messages = st.messages from rfl]
  rw [if_neg h]

theorem C10_interruption_preserves_transcript_witness :
    (onMessage { initialState with currentOutputTranscription := "Olá" }
        interruptedMessage).currentOutputTranscription = "Olá" ∧
    (onMessage { initialState with currentOutputTranscription := "Olá" }
        interruptedMessage).messages = [] ∧
    (onMessage (onMessage { initialState with currentOutputTranscription := "Olá" }
        interruptedMessage) turnCompleteMessage).messages =
      [{ role := Role.zulim, text := "Olá" }] := by
  have h := C10_interruption_preserves_transcript
    { initialState with currentOutputTranscription := "Olá" }
  exact ⟨h.1, h.2.1, h.2.2 (by decide)⟩

/-- Claim C1 counterexample: a connect attempt requesting the microphone
(`forceNoMic = false`) whose acquisition fails with the permission-denied
condition does NOT open the session: the status becomes ERROR (not CONNECTED),
execution never reaches the transport open, and `handleSendText` is a no-op
(nothing is forwarded) even with non-blank input. -/
theorem C1_counterexample :
    (connectToZulim initialState false (MicResult.denied true)).1.status =
      ConnectionStatus.ERROR ∧
    (connectToZulim initialState false (MicResult.denied true)).1.status ≠
      ConnectionStatus.CONNECTED ∧
    (connectToZulim initialState false (MicResult.denied true)).2 = false ∧
    (handleSendText
      { (connectToZulim initialState false (MicResult.denied true)).1 with
          inputText := "oi" }).2 = none := by
  refine ⟨rfl, by decide, rfl, ?_⟩
  decide

/-- Claim C1 (amended): a connect attempt requesting the microphone whose
acquisition fails with a permission-denied condition aborts the connection —
status ERROR with the mic-denied message, mic-enabled flag false, transport
never opened — while an acquisition failure that is NOT permission-denied
still opens the session in text-only mode: mic-enabled flag false, transport
opened, `onopen` yields CONNECTED, and once the session handle resolves
`handleSendText` forwards non-blank text. -/
theorem C1_mic_denied (st : AppState) :
    ((connectToZulim st false (MicResult.denied true)).1.status =
        ConnectionStatus.ERROR ∧
      (connectToZulim st false (MicResult.denied true)).1.isMicEnabled = false ∧
      (connectToZulim st false (MicResult.denied true)).1.errorMessage =
        some micDeniedMessage ∧
      (connectToZulim st false (MicResult.denied true)).2 = false) ∧
    ((connectToZulim st false (MicResult.denied false)).1.status =
        ConnectionStatus.CONNECTING ∧
      (connectToZulim st false (MicResult.denied false)).1.isMicEnabled = false ∧
      (connectToZulim st false (MicResult.denied false)).2 = true ∧
      (step (connectToZulim st false (MicResult.denied false)).1
        Event.onOpen).status = ConnectionStatus.CONNECTED) ∧
    (∀ t : String, jsTrim t ≠ "" →
      (handleSendText
        (step (step (step (connectToZulim st false (MicResult.denied false)).1
          Event.onOpen) Event.sessionResolved) (Event.setInputText t))).2 =
        some (jsTrim t)) := by
  refine ⟨⟨rfl, rfl, rfl, rfl⟩, ⟨rfl, rfl, rfl, rfl⟩, ?_⟩
  intro t ht
  simp [handleSendText, step, ht]

theorem C1_mic_denied_witness :
    (connectToZulim initialState false (MicResult.denied true)).1.status =
      ConnectionStatus.ERROR ∧
    (connectToZulim initialState false (MicResult.denied false)).2 = true ∧
    (handleSendText
      (step (step (step (connectToZulim initialState false
        (MicResult.denied false)).1
        Event.onOpen) Event.sessionResolved) (Event.setInputText "oi"))).2 =
      some (jsTrim "oi") :=
  ⟨(C1_mic_denied initialState).1.1,
   (C1_mic_denied initialState).2.1.2.2.1,
   (C1_mic_denied initialState).2.2 "oi" (by decide)⟩

/-- Claim C8 counterexample: `sessionRef.current` is never cleared on
transport close, so after a successful connect followed by `onclose` the
status is DISCONNECTED yet `handleSendText` still forwards the text to the
transport — the send is not gated on the session being Connected. -/
theorem C8_counterexample :
    (([Event.connectAttempt true MicResult.granted, Event.onOpen,
        Event.sessionResolved, Event.onClose,
        Event.setInputText "oi"].foldl step initialState).status =
      ConnectionStatus.DISCONNECTED) ∧
    (handleSendText
      ([Event.connectAttempt true MicResult.granted, Event.onOpen,
        Event.sessionResolved, Event.onClose,
        Event.setInputText "oi"].foldl step initialState)).2 = some "oi" := by
  constructor
  · rfl
  · decide

/-- Claim C8 (amended): `handleSendText` forwards the trimmed text as a user
turn exactly when the session handle is set (`sessionRef.current` non-null)
and the text is non-empty after trimming, and is a silent no-op otherwise —
the status and the error message are never touched. Because the handle is not
cleared on close, the guard is handle presence rather than the Connected
state. -/
theorem C8_sendText_guard (st : AppState) :
    (st.sessionSet = true → jsTrim st.inputText ≠ "" →
      handleSendText st =
        ({ st with
            messages := st.messages ++
              [{ role := Role.user, text := jsTrim st.inputText }]
            inputText := "" }, some (jsTrim st.inputText))) ∧
    (st.sessionSet = false ∨ jsTrim st.inputText = "" →
      handleSendText st = (st, none)) ∧
    (handleSendText st).1.status = st.status ∧
    (handleSendText st).1.errorMessage = st.errorMessage := by
  refine ⟨?_, ?_, ?_, ?_⟩
  · intro hs ht
    rw [handleSendText, if_neg]
    simp [ht, hs]
  · intro h
    rw [handleSendText, if_pos]
    rcases h with h | h
    · exact Or.inr h
    · exact Or.inl h
  · rw [handleSendText]
    split <;> rfl
  · rw [handleSendText]
    split <;> rfl

theorem C8_sendText_guard_witness :
    handleSendText
        { initialState with sessionSet := true, inputText := " oi " } =
      ({ { initialState with sessionSet := true, inputText := " oi " } with
          messages := [{ role := Role.user, text := jsTrim " oi " }]
          inputText := "" }, some (jsTrim " oi ")) ∧
    handleSendText initialState = (initialState, none) :=
  ⟨(C8_sendText_guard
      { initialState with sessionSet := true, inputText := " oi " }).1
      rfl (by decide),
   (C8_sendText_guard initialState).2.1 (Or.inl rfl)⟩

end Zulim
